import Mathlib

/-!
Shallow embedding of the task-tracking HTTP API in src/backend/main.py:
the Task data model, the four CRUD handlers (create_task, get_tasks,
update_task, delete_task) with their try/except structure, and the
SQLAlchemy column declarations of the tasks table.
-/

set_option maxHeartbeats 1000000

namespace Tdo

/-- A persisted row of the tasks table, as serialized by TaskResponse
(id, title, description, completed, color). -/
structure Task where
  id : Nat
  title : String
  description : String
  completed : Bool
  color : String
deriving Repr, DecidableEq

/-- Request body for POST tasks: pydantic model TaskCreate, with defaults
completed = False and color = the string hash-ffffff. -/
structure TaskCreate where
  title : String
  description : String
  completed : Bool := false
  color : String := "#ffffff"
deriving Repr, DecidableEq

/-- Request body for PUT tasks: pydantic model TaskUpdate, every field
Optional with default None. A field equal to none models a field absent
from the payload, which task.dict with exclude_unset set to True drops. -/
structure TaskUpdate where
  title? : Option String := none
  description? : Option String := none
  completed? : Option Bool := none
  color? : Option String := none
deriving Repr, DecidableEq

/-- The body of the DELETE response, the dict with key message. -/
structure MessageResponse where
  message : String
deriving Repr, DecidableEq

/-- A Python exception escaping a handler body: either a fastapi
HTTPException with status code and detail, or an unexpected store-layer
exception carrying an internal message. Both derive from Exception, so a
bare except Exception clause catches both. -/
inductive PyExn where
  | httpException (status : Nat) (detail : String)
  | storeError (msg : String)
deriving Repr, DecidableEq

/-- The state of the tasks table together with the primary-key sequence.
nextId is modelled from the spec: the id column is an Integer primary key
whose values the store generates (a sequence that only moves forward); the
generation itself happens inside the database, not in src. -/
structure Store where
  tasks : List Task
  nextId : Nat
deriving Repr, DecidableEq

/-- Well-formedness of a table state: primary keys are pairwise distinct
and every assigned id is below the sequence value. -/
def Store.WF (s : Store) : Prop :=
  (s.tasks.map Task.id).Nodup ∧ ∀ t ∈ s.tasks, t.id < s.nextId

instance (s : Store) : Decidable s.WF := by
  unfold Store.WF
  infer_instance

/-- The row the Task constructor call in create_task builds from the
request body, with the id the store sequence hands out at commit. -/
def mkTask (tc : TaskCreate) (i : Nat) : Task :=
  { id := i, title := tc.title, description := tc.description,
    completed := tc.completed, color := tc.color }

/-- POST tasks handler (create_task): inserts a row built from the request
body, commits, refreshes and returns it. The storeFail argument injects an
unexpected store-layer exception into the try block; the except clause
turns any exception into HTTPException 500 with detail Internal server
error. -/
def create_task (tc : TaskCreate) (s : Store) (storeFail : Option String) :
    Except PyExn (Task × Store) :=
  match storeFail with
  | some _ => .error (.httpException 500 "Internal server error")
  | none =>
    let t : Task := mkTask tc s.nextId
    .ok (t, { tasks := s.tasks ++ [t], nextId := s.nextId + 1 })

/-- Python str.lower as applied in get_tasks, embedded as ASCII case
folding over the character list (the handler only compares the result with
the ASCII literal completed). -/
def pyLower (s : String) : String := ⟨s.data.map Char.toLower⟩

/-- GET tasks handler (get_tasks): the Python guard reads if status, so
both an absent parameter and the empty string are falsy and return every
row; a truthy status filters rows by completed equal to the boolean test
status.lower equal to the string completed. -/
def get_tasks (status : Option String) (s : Store) (storeFail : Option String) :
    Except PyExn (List Task) :=
  match storeFail with
  | some _ => .error (.httpException 500 "Internal server error")
  | none =>
    match status with
    | none => .ok s.tasks
    | some q =>
      if q = "" then
        .ok s.tasks
      else
        .ok (s.tasks.filter (fun t => t.completed == (pyLower q == "completed")))

/-- The setattr loop of update_task over task.dict with exclude_unset:
every field present in the payload overwrites the row field, every absent
field is left untouched. The id field cannot appear: TaskUpdate has no id
field. -/
def applyUpdate (u : TaskUpdate) (t : Task) : Task :=
  { t with
    title := u.title?.getD t.title,
    description := u.description?.getD t.description,
    completed := u.completed?.getD t.completed,
    color := u.color?.getD t.color }

/-- The try block of the PUT handler: query the first row with the given
id, raise HTTPException 404 with detail Task not found when absent,
otherwise apply the partial update, commit (an UPDATE statement keyed on
the id column) and return the refreshed row. -/
def update_task_body (task_id : Nat) (u : TaskUpdate) (s : Store)
    (storeFail : Option String) : Except PyExn (Task × Store) :=
  match storeFail with
  | some msg => .error (.storeError msg)
  | none =>
    match s.tasks.find? (fun t => t.id == task_id) with
    | none => .error (.httpException 404 "Task not found")
    | some t =>
      let t2 := applyUpdate u t
      .ok (t2, { s with tasks := s.tasks.map (fun x => if x.id == task_id then t2 else x) })

/-- PUT tasks handler (update_task): the whole body sits inside try, and
the except Exception clause catches every exception raised there — the
deliberate HTTPException 404 included — and re-raises HTTPException 500
with detail Internal server error. -/
def update_task (task_id : Nat) (u : TaskUpdate) (s : Store)
    (storeFail : Option String) : Except PyExn (Task × Store) :=
  match update_task_body task_id u s storeFail with
  | .ok r => .ok r
  | .error _ => .error (.httpException 500 "Internal server error")

/-- The try block of the DELETE handler: query the first row with the
given id, raise HTTPException 404 with detail Task not found when absent,
otherwise delete the row (a DELETE statement keyed on the id column),
commit and return the confirmation message. -/
def delete_task_body (task_id : Nat) (s : Store) (storeFail : Option String) :
    Except PyExn (MessageResponse × Store) :=
  match storeFail with
  | some msg => .error (.storeError msg)
  | none =>
    match s.tasks.find? (fun t => t.id == task_id) with
    | none => .error (.httpException 404 "Task not found")
    | some _ =>
      .ok ({ message := "Task deleted successfully" },
           { s with tasks := s.tasks.filter (fun x => !(x.id == task_id)) })

/-- DELETE tasks handler (delete_task): like update_task, the whole body
sits inside try and the except Exception clause converts every escaping
exception — the deliberate 404 included — into HTTPException 500 with
detail Internal server error. -/
def delete_task (task_id : Nat) (s : Store) (storeFail : Option String) :
    Except PyExn (MessageResponse × Store) :=
  match delete_task_body task_id s storeFail with
  | .ok r => .ok r
  | .error _ => .error (.httpException 500 "Internal server error")

/-- A declared column of the tasks table as SQLAlchemy renders it in DDL:
whether it is the primary key, whether it admits NULL, and whether a
default argument was given. -/
structure ColumnDef where
  primaryKey : Bool
  nullable : Bool
  hasDefault : Bool
deriving Repr, DecidableEq

/-- SQLAlchemy Column semantics when no explicit nullable argument is
passed, as in every column of the Task model: a column is NOT NULL exactly
when it is the primary key; hasDefault records whether the declaration
passed a default argument. -/
def mkColumn (primary_key : Bool) (hasDefault : Bool) : ColumnDef :=
  { primaryKey := primary_key, nullable := !primary_key, hasDefault := hasDefault }

/-- The five Column declarations of the Task model, in source order:
id is Integer primary_key, title and description are plain String columns,
completed is Boolean with default False, color is a plain String column
(its hash-ffffff default lives in TaskCreate, not in the table). -/
def tasksColumns : List (String × ColumnDef) :=
  [("id", mkColumn true false),
   ("title", mkColumn false false),
   ("description", mkColumn false false),
   ("completed", mkColumn false true),
   ("color", mkColumn false false)]

/-- One client request, for reasoning about traces of API calls. -/
inductive Op where
  | createOp (tc : TaskCreate)
  | updateOp (id : Nat) (u : TaskUpdate)
  | deleteOp (id : Nat)
  | listOp (status : Option String)
deriving Repr, DecidableEq

/-- The store state a handler outcome leaves behind: a success carries the
new table state, an error leaves the table unchanged. -/
def afterOp {α : Type} (s : Store) : Except PyExn (α × Store) → Store
  | .ok (_, s2) => s2
  | .error _ => s

/-- The store state after one request handled without store failure. -/
def step (s : Store) : Op → Store
  | .createOp tc => afterOp s (create_task tc s none)
  | .updateOp i u => afterOp s (update_task i u s none)
  | .deleteOp i => afterOp s (delete_task i s none)
  | .listOp _ => s

/-- The store state after a sequence of requests. -/
def stepAll (s : Store) : List Op → Store
  | [] => s
  | op :: ops => stepAll (step s op) ops

/-- Every id the store hands out while running a sequence of requests:
each create consumes the current sequence value. -/
def assignedIds (s : Store) : List Op → List Nat
  | [] => []
  | op :: ops =>
    match op with
    | .createOp _ => s.nextId :: assignedIds (step s op) ops
    | _ => assignedIds (step s op) ops

/-- The empty table with the sequence at its start. -/
def initStore : Store := { tasks := [], nextId := 1 }

/-- Sample row with id 1, not completed. -/
def taskA : Task :=
  { id := 1, title := "A", description := "d", completed := false, color := "#ffffff" }

/-- Sample row with id 2, completed. -/
def taskB : Task :=
  { id := 2, title := "B", description := "e", completed := true, color := "#ff0000" }

/-- Sample table holding taskA and taskB. -/
def demoStore : Store := { tasks := [taskA, taskB], nextId := 3 }

end Tdo
namespace Tdo

theorem initStore_WF : initStore.WF := by decide

theorem update_task_ok {s : Store} {i : Nat} {t : Task} {u : TaskUpdate}
    (hf : s.tasks.find? (fun x => x.id == i) = some t) :
    update_task i u s none =
      .ok (applyUpdate u t,
        { s with tasks := s.tasks.map (fun x => if x.id == i then applyUpdate u t else x) }) := by
  unfold update_task update_task_body
  rw [hf]

theorem update_task_absent {s : Store} {i : Nat} {u : TaskUpdate}
    (hf : s.tasks.find? (fun x => x.id == i) = none) :
    update_task i u s none = .error (.httpException 500 "Internal server error") := by
  unfold update_task update_task_body
  rw [hf]

theorem delete_task_ok {s : Store} {i : Nat} {t : Task}
    (hf : s.tasks.find? (fun x => x.id == i) = some t) :
    delete_task i s none =
      .ok ({ message := "Task deleted successfully" },
        { s with tasks := s.tasks.filter (fun x => !(x.id == i)) }) := by
  unfold delete_task delete_task_body
  rw [hf]

theorem delete_task_absent {s : Store} {i : Nat}
    (hf : s.tasks.find? (fun x => x.id == i) = none) :
    delete_task i s none = .error (.httpException 500 "Internal server error") := by
  unfold delete_task delete_task_body
  rw [hf]

theorem get_tasks_mem {q : Option String} {s : Store} {l : List Task}
    (h : get_tasks q s none = .ok l) : ∀ x ∈ l, x ∈ s.tasks := by
  cases q with
  | none =>
    simp only [get_tasks, Except.ok.injEq] at h
    subst h; exact fun x hx => hx
  | some st =>
    by_cases hst : st = ""
    · simp only [get_tasks, hst, if_pos, Except.ok.injEq] at h
      subst h; exact fun x hx => hx
    · simp only [get_tasks, if_neg hst, Except.ok.injEq] at h
      subst h
      exact fun x hx => (List.mem_filter.mp hx).1

theorem update_ids_eq {s : Store} {i : Nat} {t : Task}
    (hf : s.tasks.find? (fun x => x.id == i) = some t) (u : TaskUpdate) :
    (s.tasks.map (fun x => if x.id == i then applyUpdate u t else x)).map Task.id
      = s.tasks.map Task.id := by
  rw [List.map_map]
  apply List.map_congr_left
  intro a ha
  by_cases hai : (a.id == i) = true
  · have hb := List.find?_some hf
    have hti : t.id = i := eq_of_beq hb
    have hai2 : a.id = i := eq_of_beq hai
    simp [Function.comp, hai, applyUpdate, hti, hai2]
  · simp [Function.comp, hai]

theorem WF_update_store {s : Store} (hwf : s.WF) {i : Nat} {t : Task}
    (hf : s.tasks.find? (fun x => x.id == i) = some t) (u : TaskUpdate) :
    ({ s with tasks := s.tasks.map (fun x => if x.id == i then applyUpdate u t else x) } : Store).WF := by
  constructor
  · show ((s.tasks.map _).map Task.id).Nodup
    rw [update_ids_eq hf u]
    exact hwf.1
  · intro x hx
    have hid : x.id ∈ (s.tasks.map (fun x => if x.id == i then applyUpdate u t else x)).map Task.id :=
      List.mem_map_of_mem Task.id hx
    rw [update_ids_eq hf u] at hid
    obtain ⟨a, ha, haid⟩ := List.mem_map.mp hid
    show x.id < s.nextId
    rw [← haid]
    exact hwf.2 a ha

theorem WF_delete_store {s : Store} (hwf : s.WF) (i : Nat) :
    ({ s with tasks := s.tasks.filter (fun x => !(x.id == i)) } : Store).WF := by
  constructor
  · exact hwf.1.sublist ((List.filter_sublist s.tasks).map Task.id)
  · intro x hx
    exact hwf.2 x (List.mem_of_mem_filter hx)

theorem WF_create_store {s : Store} (hwf : s.WF) (tc : TaskCreate) :
    (Store.mk (s.tasks ++ [mkTask tc s.nextId]) (s.nextId + 1)).WF := by
  constructor
  · rw [List.map_append, List.nodup_append]
    refine ⟨hwf.1, List.nodup_singleton _, ?disj⟩
    intro a ha hb
    obtain ⟨x, hx, hxa⟩ := List.mem_map.mp ha
    simp only [List.map_cons, List.map_nil, List.mem_cons, List.not_mem_nil, or_false] at hb
    have h4 : a < s.nextId := by rw [← hxa]; exact hwf.2 x hx
    simp only [mkTask] at hb
    omega
  · intro x hx
    rcases List.mem_append.mp hx with h1 | h2
    · exact Nat.lt_succ_of_lt (hwf.2 x h1)
    · rcases List.mem_singleton.mp h2 with rfl
      exact Nat.lt_succ_self _

theorem WF_step {s : Store} (hwf : s.WF) (op : Op) : (step s op).WF := by
  cases op with
  | createOp tc => exact WF_create_store hwf tc
  | updateOp i u =>
    cases hf : s.tasks.find? (fun x => x.id == i) with
    | none => simpa [step, afterOp, update_task_absent hf] using hwf
    | some t =>
      simpa [step, afterOp, update_task_ok hf] using WF_update_store hwf hf u
  | deleteOp i =>
    cases hf : s.tasks.find? (fun x => x.id == i) with
    | none => simpa [step, afterOp, delete_task_absent hf] using hwf
    | some t =>
      simpa [step, afterOp, delete_task_ok hf] using WF_delete_store hwf i
  | listOp q => exact hwf

theorem WF_stepAll {s : Store} (hwf : s.WF) (ops : List Op) : (stepAll s ops).WF := by
  induction ops generalizing s with
  | nil => exact hwf
  | cons op ops ih => exact ih (WF_step hwf op)

theorem step_nextId_le (s : Store) (op : Op) : s.nextId ≤ (step s op).nextId := by
  cases op with
  | createOp tc => exact Nat.le_succ _
  | updateOp i u =>
    cases hf : s.tasks.find? (fun x => x.id == i) with
    | none => simp [step, afterOp, update_task_absent hf]
    | some t => simp [step, afterOp, update_task_ok hf]
  | deleteOp i =>
    cases hf : s.tasks.find? (fun x => x.id == i) with
    | none => simp [step, afterOp, delete_task_absent hf]
    | some t => simp [step, afterOp, delete_task_ok hf]
  | listOp q => exact Nat.le_refl _

theorem stepAll_nextId_le (s : Store) (ops : List Op) :
    s.nextId ≤ (stepAll s ops).nextId := by
  induction ops generalizing s with
  | nil => exact Nat.le_refl _
  | cons op ops ih => exact Nat.le_trans (step_nextId_le s op) (ih (step s op))

theorem assignedIds_lt (s : Store) (ops : List Op) :
    ∀ j ∈ assignedIds s ops, j < (stepAll s ops).nextId := by
  induction ops generalizing s with
  | nil => intro j hj; cases hj
  | cons op ops ih =>
    intro j hj
    cases op with
    | createOp tc =>
      simp only [assignedIds, List.mem_cons] at hj
      rcases hj with rfl | h2
      · have h3 : (step s (Op.createOp tc)).nextId = s.nextId + 1 := rfl
        have h4 : s.nextId < (step s (Op.createOp tc)).nextId := by
          rw [h3]; exact Nat.lt_succ_self _
        exact Nat.lt_of_lt_of_le h4 (stepAll_nextId_le _ ops)
      · exact ih (step s (Op.createOp tc)) j h2
    | updateOp i u =>
      simp only [assignedIds] at hj
      exact ih (step s (Op.updateOp i u)) j hj
    | deleteOp i =>
      simp only [assignedIds] at hj
      exact ih (step s (Op.deleteOp i)) j hj
    | listOp q =>
      simp only [assignedIds] at hj
      exact ih (step s (Op.listOp q)) j hj

end Tdo
namespace Tdo

/-- Claim C1: the spec promises that updating or deleting a nonexistent id
yields the deliberate 404 outcome with detail Task not found, not the 500
outcome. The handler bodies do raise HTTPException 404 with that detail,
but both raises sit inside the try block, whose except Exception clause
catches them and re-raises HTTPException 500 with detail Internal server
error, so the caller observes 500 for a missing id. -/
theorem c1_notfound_becomes_500 :
    update_task_body 1 {} initStore none = .error (.httpException 404 "Task not found") ∧
    update_task 1 {} initStore none = .error (.httpException 500 "Internal server error") ∧
    delete_task_body 1 initStore none = .error (.httpException 404 "Task not found") ∧
    delete_task 1 initStore none = .error (.httpException 500 "Internal server error") :=
  ⟨rfl, rfl, rfl, rfl⟩

/-- Claim C2: a status value whose lowercasing is the string completed
lists exactly the completed tasks; any other non-empty value lists exactly
the tasks with completed false; an absent status parameter lists every
stored task. -/
theorem c2_status_filter :
    (∀ (s : Store) (q : String), pyLower q = "completed" →
      get_tasks (some q) s none = .ok (s.tasks.filter (fun t => t.completed))) ∧
    (∀ (s : Store) (q : String), q ≠ "" → pyLower q ≠ "completed" →
      get_tasks (some q) s none = .ok (s.tasks.filter (fun t => !t.completed))) ∧
    (∀ s : Store, get_tasks none s none = .ok s.tasks) := by
  refine ⟨?pos, ?neg, fun s => rfl⟩
  · intro s q h
    have hq : q ≠ "" := by
      intro he; subst he
      exact absurd h (by decide)
    have hb : (pyLower q == "completed") = true := beq_iff_eq.mpr h
    simp only [get_tasks, if_neg hq, hb]
    simp
  · intro s q hq h
    have hb : (pyLower q == "completed") = false := by
      simp only [beq_eq_false_iff_ne, ne_eq]
      exact h
    simp only [get_tasks, if_neg hq, hb]
    simp

/-- Witness for claim C2 on a concrete store: filtering demoStore with
status Completed, with status pending, and with no status. -/
theorem c2_status_filter_witness :
    get_tasks (some "Completed") demoStore none =
      .ok (demoStore.tasks.filter (fun t => t.completed)) ∧
    get_tasks (some "pending") demoStore none =
      .ok (demoStore.tasks.filter (fun t => !t.completed)) ∧
    get_tasks none demoStore none = .ok demoStore.tasks :=
  ⟨c2_status_filter.1 demoStore "Completed" (by decide),
   c2_status_filter.2.1 demoStore "pending" (by decide) (by decide),
   c2_status_filter.2.2 demoStore⟩

/-- Claim C3: updating an existing task applies exactly the payload fields
that are present and leaves absent fields at their prior values; in
particular a payload holding only completed true leaves title, description
and color unchanged. -/
theorem c3_partial_update :
    ∀ (s : Store) (i : Nat) (t : Task) (u : TaskUpdate),
      s.tasks.find? (fun x => x.id == i) = some t →
      ∃ t2 s2, update_task i u s none = .ok (t2, s2) ∧
        t2.id = t.id ∧
        t2.title = u.title?.getD t.title ∧
        t2.description = u.description?.getD t.description ∧
        t2.completed = u.completed?.getD t.completed ∧
        t2.color = u.color?.getD t.color ∧
        t2 ∈ s2.tasks ∧
        (u = { completed? := some true } →
          t2.title = t.title ∧ t2.description = t.description ∧
          t2.color = t.color ∧ t2.completed = true) := by
  intro s i t u hf
  refine ⟨applyUpdate u t, _, update_task_ok hf, rfl, rfl, rfl, rfl, rfl, ?mem, ?inst⟩
  · have ht : t ∈ s.tasks := List.mem_of_find?_eq_some hf
    have hb := List.find?_some hf
    have hmap :=
      List.mem_map_of_mem (fun x => if x.id == i then applyUpdate u t else x) ht
    simpa [hb] using hmap
  · intro hu; subst hu
    exact ⟨rfl, rfl, rfl, rfl⟩

/-- Witness for claim C3: marking taskA in demoStore as completed through
the update endpoint changes only the completed field. -/
theorem c3_partial_update_witness :
    ∃ t2 s2,
      update_task 1 { completed? := some true } demoStore none = .ok (t2, s2) ∧
      t2.id = taskA.id ∧
      t2.title = ({ completed? := some true } : TaskUpdate).title?.getD taskA.title ∧
      t2.description =
        ({ completed? := some true } : TaskUpdate).description?.getD taskA.description ∧
      t2.completed = ({ completed? := some true } : TaskUpdate).completed?.getD taskA.completed ∧
      t2.color = ({ completed? := some true } : TaskUpdate).color?.getD taskA.color ∧
      t2 ∈ s2.tasks ∧
      (({ completed? := some true } : TaskUpdate) = { completed? := some true } →
        t2.title = taskA.title ∧ t2.description = taskA.description ∧
        t2.color = taskA.color ∧ t2.completed = true) :=
  c3_partial_update demoStore 1 taskA { completed? := some true } (by decide)

/-- Claim C4: creating with only title and description persists a task
with completed false, color hash-ffffff, membership in the new table, and
an id the sequence never handed out before, whatever requests ran before
on the empty initial store. -/
theorem c4_create_defaults :
    ∀ (ops : List Op) (ti d : String),
      ∃ t s2,
        create_task { title := ti, description := d } (stepAll initStore ops) none =
          .ok (t, s2) ∧
        t.completed = false ∧ t.color = "#ffffff" ∧ t ∈ s2.tasks ∧
        t.id ∉ assignedIds initStore ops ∧
        ∀ x ∈ (stepAll initStore ops).tasks, x.id ≠ t.id := by
  intro ops ti d
  refine ⟨_, _, rfl, rfl, rfl, ?mem, ?fresh, ?cur⟩
  · exact List.mem_append_right _ (List.mem_singleton_self _)
  · intro hmem
    exact absurd (assignedIds_lt initStore ops _ hmem) (Nat.lt_irrefl _)
  · intro x hx
    have hwf := WF_stepAll initStore_WF ops
    exact Nat.ne_of_lt (hwf.2 x hx)

/-- Claim C5: deleting an existing id returns the confirmation message
Task deleted successfully, removes every row with that id, and every
subsequent list, filtered or not, contains no task with that id. -/
theorem c5_delete_removes :
    ∀ (s : Store) (i : Nat) (t : Task), t ∈ s.tasks → t.id = i →
      ∃ s2,
        delete_task i s none = .ok ({ message := "Task deleted successfully" }, s2) ∧
        (∀ x ∈ s2.tasks, x.id ≠ i) ∧
        (∀ (q : Option String) (l : List Task),
          get_tasks q s2 none = .ok l → ∀ x ∈ l, x.id ≠ i) := by
  intro s i t ht hid
  have hsome : (s.tasks.find? (fun x => x.id == i)).isSome :=
    List.find?_isSome.mpr ⟨t, ht, beq_iff_eq.mpr hid⟩
  obtain ⟨t0, hf⟩ := Option.isSome_iff_exists.mp hsome
  refine ⟨_, delete_task_ok hf, ?h1, ?h2⟩
  · intro x hx
    have hfil := (List.mem_filter.mp hx).2
    simp only [Bool.not_eq_eq_eq_not, Bool.not_true, beq_eq_false_iff_ne, ne_eq] at hfil
    exact hfil
  · intro q l hl x hx
    have hx2 := get_tasks_mem hl x hx
    have hfil := (List.mem_filter.mp hx2).2
    simp only [Bool.not_eq_eq_eq_not, Bool.not_true, beq_eq_false_iff_ne, ne_eq] at hfil
    exact hfil

/-- Witness for claim C5: deleting taskB (id 2) from demoStore. -/
theorem c5_delete_removes_witness :
    ∃ s2,
      delete_task 2 demoStore none = .ok ({ message := "Task deleted successfully" }, s2) ∧
      (∀ x ∈ s2.tasks, x.id ≠ 2) ∧
      (∀ (q : Option String) (l : List Task),
        get_tasks q s2 none = .ok l → ∀ x ∈ l, x.id ≠ 2) :=
  c5_delete_removes demoStore 2 taskB (by decide) (by decide)

/-- Claim C6: in every state reached from the initial store the ids are
pairwise distinct; one request preserves well-formedness; the update
payload cannot touch the id field; and after any further requests a
create hands out an id different from that of any task present in a
well-formed store, deleted meanwhile or not. -/
theorem c6_id_invariants :
    (∀ ops : List Op, ((stepAll initStore ops).tasks.map Task.id).Nodup) ∧
    (∀ s : Store, s.WF → ∀ op, (step s op).WF) ∧
    (∀ (u : TaskUpdate) (t : Task), (applyUpdate u t).id = t.id) ∧
    (∀ (s : Store) (t : Task) (ops : List Op) (tc : TaskCreate),
      s.WF → t ∈ s.tasks →
      ∃ t2 s2, create_task tc (stepAll s ops) none = .ok (t2, s2) ∧ t2.id ≠ t.id) := by
  refine ⟨?resNodup, fun s h op => WF_step h op, fun u t => rfl, ?fresh⟩
  · intro ops
    exact (WF_stepAll initStore_WF ops).1
  · intro s t ops tc hwf ht
    refine ⟨_, _, rfl, ?ne⟩
    have h1 : t.id < s.nextId := hwf.2 t ht
    have h2 : s.nextId ≤ (stepAll s ops).nextId := stepAll_nextId_le s ops
    exact Nat.ne_of_gt (Nat.lt_of_lt_of_le h1 h2)

/-- Witness for claim C6: demoStore is well formed and stays so after
deleting taskA, and a create after that delete does not reuse id 1. -/
theorem c6_id_invariants_witness :
    (step demoStore (Op.deleteOp 1)).WF ∧
    (∃ t2 s2, create_task { title := "C", description := "f" }
        (stepAll demoStore [Op.deleteOp 1]) none = .ok (t2, s2) ∧ t2.id ≠ taskA.id) :=
  ⟨c6_id_invariants.2.1 demoStore (by decide) (Op.deleteOp 1),
   c6_id_invariants.2.2.2 demoStore taskA [Op.deleteOp 1] { title := "C", description := "f" }
     (by decide) (by decide)⟩

/-- Claim C7: with an unexpected store-layer exception injected, every one
of the four handlers surfaces HTTPException 500 whose detail is exactly
the string Internal server error, whatever internal message the exception
carried. -/
theorem c7_store_failure_masked :
    ∀ (msg : String) (s : Store) (tc : TaskCreate) (q : Option String)
      (i : Nat) (u : TaskUpdate),
      create_task tc s (some msg) = .error (.httpException 500 "Internal server error") ∧
      get_tasks q s (some msg) = .error (.httpException 500 "Internal server error") ∧
      update_task i u s (some msg) = .error (.httpException 500 "Internal server error") ∧
      delete_task i s (some msg) = .error (.httpException 500 "Internal server error") :=
  fun _ _ _ _ _ _ => ⟨rfl, rfl, rfl, rfl⟩

/-- Claim C8 counterexample: the claim that the title column rejects null
and the color column has a storage default is false: every non-primary-key
column of the Task model is declared without nullable and so admits NULL,
and color is declared without a default argument. -/
theorem c8_nullable_counterexample :
    ¬ ((∀ nc ∈ tasksColumns, nc.1 = "title" → nc.2.nullable = false) ∧
       (∀ nc ∈ tasksColumns, nc.1 = "color" → nc.2.hasDefault = true)) := by
  decide

/-- Claim C8 amended: at the storage layer only the id column, being the
primary key, rejects NULL; title, description, completed and color are all
nullable; completed is the only column declared with a default; the
hash-ffffff color default is applied by the TaskCreate request model, not
by the table. -/
theorem c8_nullability :
    (∀ nc ∈ tasksColumns, nc.2.nullable = !nc.2.primaryKey) ∧
    tasksColumns.lookup "id" =
      some { primaryKey := true, nullable := false, hasDefault := false } ∧
    tasksColumns.lookup "title" =
      some { primaryKey := false, nullable := true, hasDefault := false } ∧
    tasksColumns.lookup "description" =
      some { primaryKey := false, nullable := true, hasDefault := false } ∧
    tasksColumns.lookup "completed" =
      some { primaryKey := false, nullable := true, hasDefault := true } ∧
    tasksColumns.lookup "color" =
      some { primaryKey := false, nullable := true, hasDefault := false } ∧
    ({ title := "A", description := "d" } : TaskCreate).color = "#ffffff" := by
  decide

/-- Claim C9: a status query parameter equal to the empty string is falsy
in the Python guard, so listing behaves exactly as with an absent
parameter and returns every stored task. -/
theorem c9_empty_status_lists_all :
    ∀ s : Store, get_tasks (some "") s none = .ok s.tasks ∧
      get_tasks (some "") s none = get_tasks none s none :=
  fun _ => ⟨rfl, rfl⟩

/-- Claim C10: updating an existing id with an empty payload succeeds and
returns the task unchanged, leaving the whole store state untouched. -/
theorem c10_empty_update_noop :
    ∀ (s : Store) (i : Nat) (t : Task), s.WF →
      s.tasks.find? (fun x => x.id == i) = some t →
      update_task i {} s none = .ok (t, s) := by
  intro s i t hwf hf
  rw [update_task_ok hf]
  have h2 : s.tasks.map (fun x => if x.id == i then applyUpdate {} t else x) = s.tasks := by
    have hcong : ∀ a ∈ s.tasks,
        (fun x => if x.id == i then applyUpdate {} t else x) a = id a := by
      intro a ha
      by_cases hai : (a.id == i) = true
      · have hb := List.find?_some hf
        have hti : t.id = i := eq_of_beq hb
        have hai2 : a.id = i := eq_of_beq hai
        have hat : a = t :=
          List.inj_on_of_nodup_map hwf.1 ha (List.mem_of_find?_eq_some hf)
            (by rw [hai2, hti])
        simp [hai, hat, applyUpdate]
      · simp [hai]
    rw [List.map_congr_left hcong, List.map_id]
  rw [h2]
  rfl

/-- Witness for claim C10: an empty update of taskA leaves demoStore as it
was and returns taskA itself. -/
theorem c10_empty_update_noop_witness :
    update_task 1 {} demoStore none = .ok (taskA, demoStore) :=
  c10_empty_update_noop demoStore 1 taskA (by decide) (by decide)

end Tdo
